import Mathlib

/-!
Verification of the pypsh parallel-ssh dispatcher (`pypsh/main.py`).

The development shallowly embeds the observable behaviour of the program:
the per-host worker (`Executor._exec`), host selection (`get_hosts`), the
orchestrating launch loop (`start_procs`), the aggregate report
(`print_result`) and the invocation-level control flow of the `copy`
subcommand.  External collaborators (paramiko, the `re` module, `termcolor`,
the known-hosts store and the filesystem) are modelled at their boundary,
as data passed in.
-/

unseal List.merge List.mergeSort

namespace Pypsh

/-! ### Model of the external `re` module

`get_hosts` compiles the user pattern with `re.compile` and filters the
stored host keys with `rex.match(key)`.  `re.match` anchors at the start of
the string only: it succeeds iff the pattern matches some prefix of the
string, not necessarily all of it.  The pattern language is modelled by a
standard regular-expression syntax with Brzozowski-derivative matching. -/

/-- Syntax of regular expressions: empty language, empty word, one literal
character, any character, concatenation, alternation, Kleene star. -/
inductive Regex where
  | emp
  | eps
  | char (c : Char)
  | dot
  | concat (a b : Regex)
  | alt (a b : Regex)
  | star (a : Regex)
deriving Repr, DecidableEq

/-- Nullability: whether the regex accepts the empty word. -/
def nullable : Regex → Bool
  | .emp => false
  | .eps => true
  | .char _ => false
  | .dot => false
  | .concat a b => nullable a && nullable b
  | .alt a b => nullable a || nullable b
  | .star _ => true

/-- Brzozowski derivative of a regex by one character. -/
def deriv : Regex → Char → Regex
  | .emp, _ => .emp
  | .eps, _ => .emp
  | .char a, c => if a = c then .eps else .emp
  | .dot, _ => .eps
  | .concat a b, c =>
      if nullable a then .alt (.concat (deriv a c) b) (deriv b c)
      else .concat (deriv a c) b
  | .alt a b, c => .alt (deriv a c) (deriv b c)
  | .star a, c => .concat (deriv a c) (.star a)

/-- Matching a whole character list against a regex by iterated
derivatives. -/
def fullMatch (r : Regex) (cs : List Char) : Bool :=
  nullable (cs.foldl deriv r)

/-- Model of the call `rex.match(key)` in `get_hosts` (line 114): Python's
`re.match` is anchored at the start of the string and succeeds iff the
pattern matches some prefix of the string. -/
def reMatch (r : Regex) (s : String) : Bool :=
  s.data.inits.any (fullMatch r)

/-- Literal pattern consisting only of ordinary characters, such as the
pattern `web` of the specification's example. -/
def lit : List Char → Regex
  | [] => .eps
  | c :: p => .concat (.char c) (lit p)

theorem fullMatch_nil (r : Regex) : fullMatch r [] = nullable r := rfl

theorem fullMatch_cons (r : Regex) (c : Char) (cs : List Char) :
    fullMatch r (c :: cs) = fullMatch (deriv r c) cs := rfl

theorem fullMatch_emp (t : List Char) : fullMatch Regex.emp t = false := by
  induction t with
  | nil => rfl
  | cons c cs ih => simpa [fullMatch_cons, deriv] using ih

theorem fullMatch_alt (a b : Regex) (t : List Char) :
    fullMatch (Regex.alt a b) t = (fullMatch a t || fullMatch b t) := by
  induction t generalizing a b with
  | nil => rfl
  | cons c cs ih => simpa [fullMatch_cons, deriv] using ih (deriv a c) (deriv b c)

theorem fullMatch_concat_emp (r : Regex) (t : List Char) :
    fullMatch (Regex.concat Regex.emp r) t = false := by
  induction t generalizing r with
  | nil => rfl
  | cons c cs ih => simpa [fullMatch_cons, deriv, nullable] using ih r

theorem fullMatch_concat_eps (r : Regex) (t : List Char) :
    fullMatch (Regex.concat Regex.eps r) t = fullMatch r t := by
  cases t with
  | nil => rfl
  | cons c cs =>
      rw [fullMatch_cons, fullMatch_cons]
      have hd : deriv (Regex.concat Regex.eps r) c
          = Regex.alt (Regex.concat Regex.emp r) (deriv r c) := by
        simp [deriv, nullable]
      rw [hd, fullMatch_alt, fullMatch_concat_emp]
      simp

theorem fullMatch_lit (p t : List Char) : fullMatch (lit p) t = decide (t = p) := by
  induction p generalizing t with
  | nil =>
      cases t with
      | nil => rfl
      | cons c cs => simp [lit, fullMatch_cons, deriv, fullMatch_emp]
  | cons a p ih =>
      cases t with
      | nil => simp [lit, fullMatch_nil, nullable]
      | cons c cs =>
          rw [fullMatch_cons]
          by_cases hac : a = c
          · subst hac
            have hd : deriv (lit (a :: p)) a = Regex.concat Regex.eps (lit p) := by
              simp [lit, deriv, nullable]
            rw [hd, fullMatch_concat_eps, ih]
            simp
          · have hd : deriv (lit (a :: p)) c = Regex.concat Regex.emp (lit p) := by
              simp [lit, deriv, nullable, hac]
            rw [hd, fullMatch_concat_emp]
            have hne : c :: cs ≠ a :: p := by
              intro h
              exact hac (List.head_eq_of_cons_eq h).symm
            simp [hne]

theorem reMatch_lit (p : List Char) (s : String) :
    reMatch (lit p) s = true ↔ p <+: s.data := by
  unfold reMatch
  rw [List.any_eq_true]
  constructor
  · rintro ⟨t, ht, hm⟩
    rw [fullMatch_lit] at hm
    have heq : t = p := of_decide_eq_true hm
    subst heq
    exact (List.mem_inits _ _).mp ht
  · intro h
    exact ⟨p, (List.mem_inits _ _).mpr h, by rw [fullMatch_lit]; simp⟩

/-! ### Model of Python string ordering

Python's `sorted` compares strings lexicographically by code point. -/

/-- Lexicographic (code-point) comparison of character lists. -/
def lexLe : List Char → List Char → Bool
  | [], _ => true
  | _ :: _, [] => false
  | a :: as, b :: bs => if a = b then lexLe as bs else decide (a < b)

/-- Lexicographic comparison of strings, the order Python's `sorted` uses
on `str` values and keys. -/
def strLe (a b : String) : Bool := lexLe a.data b.data

theorem lexLe_trans (a : List Char) :
    ∀ b c, lexLe a b = true → lexLe b c = true → lexLe a c = true := by
  induction a with
  | nil => intro b c _ _; rfl
  | cons x xs ih =>
    intro b c h1 h2
    cases b with
    | nil => simp [lexLe] at h1
    | cons y ys =>
      cases c with
      | nil => simp [lexLe] at h2
      | cons z zs =>
        simp only [lexLe] at h1 h2 ⊢
        by_cases hxy : x = y
        · subst hxy
          simp only [if_pos rfl] at h1
          by_cases hyz : x = z
          · subst hyz
            simp only [if_pos rfl] at h2 ⊢
            exact ih ys zs h1 h2
          · simp only [if_neg hyz] at h2 ⊢
            exact h2
        · simp only [if_neg hxy] at h1
          by_cases hyz : y = z
          · subst hyz
            simp only [if_neg hxy]
            exact h1
          · simp only [if_neg hyz] at h2
            have hlt : x < z := lt_trans (of_decide_eq_true h1) (of_decide_eq_true h2)
            simp only [if_neg (ne_of_lt hlt)]
            exact decide_eq_true hlt

theorem lexLe_total (a : List Char) : ∀ b, (lexLe a b || lexLe b a) = true := by
  induction a with
  | nil => intro b; simp [lexLe]
  | cons x xs ih =>
    intro b
    cases b with
    | nil => simp [lexLe]
    | cons y ys =>
      simp only [lexLe]
      by_cases hxy : x = y
      · subst hxy
        simp only [if_pos rfl]
        exact ih ys
      · simp only [if_neg hxy, if_neg (Ne.symm hxy)]
        rcases lt_or_gt_of_ne hxy with h | h
        · simp [h]
        · simp [h]

/-! ### Worker model: `Executor._exec` (lines 43 to 68)

The worker connects, runs the operation, consumes the stdout and stderr
streams, and handles failures, all inside one `try` / `except` / `finally`
with a `return` in the `finally` block. -/

/-- Terminal colouring (the external `termcolor.colored`) only changes
display attributes of the text and is out of scope per the specification;
it is modelled as the identity on the text. -/
def colored (s : String) : String := s

/-- Python's `str.rstrip`: drop trailing whitespace. -/
def pyRstrip (s : String) : String :=
  String.mk (s.data.reverse.dropWhile Char.isWhitespace).reverse

/-- Host-prefixed report line, as produced by the format strings on lines
55, 58, 61 and 64. -/
def hostLine (host line : String) : String := host ++ ": " ++ line

/-- Exceptions that can be in flight inside `Executor._exec`.  `ioError`
models `IOError` / `OSError` (network and file-transfer failures caught on
line 60); `sshError` models paramiko's `BadHostKeyException`,
`AuthenticationException` and `SSHException` (caught on line 63), with
`hasMessage` recording whether the exception object carries a `message`
attribute — under Python 3 it does not, so the handler's `e.message`
access itself raises `attributeError`, which no handler catches. -/
inductive Exc where
  | ioError (msg : String)
  | sshError (hasMessage : Bool) (msg : String)
  | attributeError
deriving Repr, DecidableEq

/-- Local state of one `_exec` call: the `exitcode` variable initialised to
0 on line 44, and the lines printed so far. -/
structure PyState where
  exitcode : Int
  printed : List String
deriving Repr, DecidableEq

/-- Behaviour of one host's remote session as observed by `_exec`
(paramiko is an external collaborator).  `complete` is a run in which
connect, the operation and the consumption of both streams finish without
an exception; it carries the remote command's own numeric exit status,
which the code never reads.  The `fail` cases carry the stdout and stderr
lines already consumed before the exception surfaced (both empty when
`connect` or the operation itself failed). -/
inductive SessionBehavior where
  | complete (remoteStatus : Int) (stdoutLines stderrLines : List String)
  | ioFail (stdoutBefore stderrBefore : List String) (msg : String)
  | failSSH (stdoutBefore stderrBefore : List String) (hasMessage : Bool) (msg : String)
deriving Repr, DecidableEq

/-- Lines printed while consuming a stream: each line is stripped of
trailing whitespace and prefixed with the host name (lines 53 to 58). -/
def consumedLines (host : String) (ls : List String) : List String :=
  ls.map fun l => hostLine host (pyRstrip l)

/-- Result of the `try` block body (lines 48 to 59): the state reached and
the exception in flight, if any.  The stdout loop runs before the stderr
loop; each consumed stderr line sets `exitcode` to 1 (line 59), so the exit
code is 1 exactly when at least one stderr line was consumed. -/
def tryBody (host : String) (b : SessionBehavior) : PyState × Option Exc :=
  match b with
  | .complete _ out err =>
      (⟨if err.isEmpty then 0 else 1,
        consumedLines host out ++ (consumedLines host err).map colored⟩, none)
  | .ioFail out err msg =>
      (⟨if err.isEmpty then 0 else 1,
        consumedLines host out ++ (consumedLines host err).map colored⟩,
       some (.ioError msg))
  | .failSSH out err hasMsg msg =>
      (⟨if err.isEmpty then 0 else 1,
        consumedLines host out ++ (consumedLines host err).map colored⟩,
       some (.sshError hasMsg msg))

/-- Except handlers (lines 60 to 65).  The `IOError` handler prints one
coloured host-prefixed line and sets the exit code to 1.  The ssh-layer
handler first evaluates `e.message`: when the exception object has no such
attribute this raises `attributeError` before anything is printed or the
exit code is set.  When the attribute exists, note that the misplaced
parenthesis on line 64 passes the string `red` to `print` instead of to
`colored`, so the printed line carries a stray trailing word. -/
def handleExc (host : String) (st : PyState) : Exc → PyState × Option Exc
  | .ioError msg => (⟨1, st.printed ++ [colored (hostLine host msg)]⟩, none)
  | .sshError true msg => (⟨1, st.printed ++ [colored (hostLine host msg) ++ " red"]⟩, none)
  | .sshError false _ => (st, some .attributeError)
  | .attributeError => (st, some .attributeError)

/-- Python semantics of a `finally` block whose last statement is `return`
(line 68): the pending exception, if any, is discarded and the function
returns normally with the current value of `exitcode`.  The session close
on line 67 has no further observable effect here. -/
def pyFinallyReturn (st : PyState) (_pending : Option Exc) : Except Exc PyState :=
  .ok st

/-- Model of `Executor._exec` (lines 43 to 68): run the `try` body for the
given session behaviour, dispatch any in-flight exception to the handlers,
then run the `finally` block.  An `Except.error` result would mean the call
propagates an exception to its caller. -/
def Executor.exec (host : String) (b : SessionBehavior) : Except Exc PyState :=
  match tryBody host b with
  | (st, none) => pyFinallyReturn st none
  | (st, some e) =>
      match handleExc host st e with
      | (st2, pending) => pyFinallyReturn st2 pending

/-- Per-worker outcome (specification section 3): `succeeded` holds iff
the exit code is 0. -/
structure WorkerResult where
  host : String
  exitCode : Int
  succeeded : Bool
deriving Repr, DecidableEq

/-- Outcome of one worker: the process exits with the value returned by
`_exec` (`sys.exit(self._exec())`, line 34). -/
def runWorker (host : String) (b : SessionBehavior) : Except Exc WorkerResult :=
  (Executor.exec host b).map fun st => ⟨host, st.exitcode, st.exitcode == 0⟩

/-! ### Orchestrator model: `start_procs` (lines 136 to 156)

The launch loop starts one worker process per host in selection order;
with a positive interval it joins the worker and sleeps before the next
launch; afterwards it polls `active_children` until all workers are done.
The observable scheduling behaviour is modelled as an event trace. -/

/-- Observable scheduling events of `start_procs`: `launch h` is
`process.start()` (line 143), `awaitResult h` is `process.join()`
(line 145), which blocks until that worker has terminated and its result
exists, `sleepPause` is `sleep(interval)` (line 146), and `drain` is entry
into the `active_children` polling loop (line 149). -/
inductive Event where
  | launch (h : String)
  | awaitResult (h : String)
  | sleepPause
  | drain
deriving Repr, DecidableEq

def Event.isLaunch : Event → Bool
  | .launch _ => true
  | _ => false

def Event.isAwait : Event → Bool
  | .awaitResult _ => true
  | _ => false

/-- Events of one iteration of the launch loop (lines 141 to 147); the
interval test is `interval > 0.0` (line 144).  The interval is a finite
Python float, represented exactly as a rational. -/
def workerBlock (interval : Rat) (h : String) : List Event :=
  Event.launch h :: (if 0 < interval then [Event.awaitResult h, Event.sleepPause] else [])

/-- Full event trace of `start_procs`: the launch loop over the hosts in
selection order, followed by the drain loop. -/
def start_procs_trace (interval : Rat) (hosts : List String) : List Event :=
  (hosts.map (workerBlock interval)).flatten ++ [Event.drain]

/-- A launched worker process as `print_result` sees it: its host and the
exit code it terminated with — 0 or 1 from `_exec` via `sys.exit`, or a
negative signal number when the process was terminated early by
cancellation (`p.stop()`, lines 152 to 154). -/
structure Proc where
  host : String
  exitcode : Int
deriving Repr, DecidableEq

/-- Process list built by `start_procs` (lines 140 to 147): exactly one
process per host, in selection order, each appended exactly once, also
when the drain loop was interrupted; `exitOf` gives the exit code each
worker terminated with. -/
def start_procs (hosts : List String) (exitOf : String → Int) : List Proc :=
  hosts.map fun h => ⟨h, exitOf h⟩

/-- Aggregate outcome printed at the end of a dispatch (lines 130 to
133). -/
structure Report where
  numOk : Nat
  failedHosts : List String
deriving Repr, DecidableEq

/-- Model of `print_result` (lines 126 to 133): the number of processes
with exit code 0, and the hosts of the processes with nonzero exit code,
sorted by host — Python's `sorted` with `key=lambda x: x.host` is a stable
sort on the lexicographic string order. -/
def print_result (ps : List Proc) : Report :=
  ⟨(ps.filter fun p => p.exitcode == 0).length,
   ((ps.filter fun p => p.exitcode != 0).mergeSort fun a b => strLe a.host b.host).map
     Proc.host⟩

/-! ### Host selection: `get_hosts` (lines 97 to 123) -/

/-- Fatal failure modes of host selection: the known-hosts store is
unreadable or corrupt (`SSHException` from `util.load_host_keys`,
line 105), or the pattern is rejected by `re.compile` (line 111).  Both
end the invocation through `sys.exit`. -/
inductive Fatal where
  | storeError
  | patternError
deriving Repr, DecidableEq

/-- Result of a successful host selection: the matched hosts in store
order, as returned to the caller, and the sorted list printed in the
match report (line 121). -/
structure HostSelection where
  hosts : List String
  printedSorted : List String
deriving Repr, DecidableEq

/-- Model of `get_hosts` (lines 97 to 123).  The known-hosts store and the
compiled pattern are external inputs: `store` is `Except.error` when
loading the store raises, and `pat` is `none` when `re.compile` rejects
the pattern.  On success the keys whose start the pattern matches are
kept, in store order, and the sorted list is printed. -/
def get_hosts (store : Except Unit (List String)) (pat : Option Regex) :
    Except Fatal HostSelection :=
  match store with
  | .error _ => .error .storeError
  | .ok keys =>
      match pat with
      | none => .error .patternError
      | some rex =>
          .ok ⟨keys.filter fun k => reMatch rex k,
               (keys.filter fun k => reMatch rex k).mergeSort strLe⟩

/-! ### Invocation-level control flow of the `copy` subcommand -/

/-- Invocation-level steps: a printed user-facing message, the launch of
one worker, and the final aggregate report. -/
inductive Step where
  | note (msg : String)
  | launch (h : String)
  | reported (r : Report)
deriving Repr, DecidableEq

/-- Outcome of one invocation: the steps it performed and, when it was
aborted by `sys.exit`, the process exit status. -/
structure Invocation where
  steps : List Step
  exitStatus : Option Int
deriving Repr, DecidableEq

/-- Control flow of `dispatch` for the copy subcommand (lines 167 to 186):
`get_hosts` runs first and exits with status 1 on a store or pattern
error; then `copy` exits with status 1 when the local source file does not
exist (lines 168 to 170), before any executor is built or any connection
attempted; otherwise one worker per selected host is launched and the
aggregate report is printed.  `exitStatus` is `some 1` on the abort paths
and `none` on normal completion. -/
def copyInvocation (source : String) (store : Except Unit (List String))
    (pat : Option Regex) (sourceIsFile : Bool) (exitOf : String → Int) : Invocation :=
  match get_hosts store pat with
  | .error .storeError =>
      ⟨[Step.note "Error in known_hosts"], some 1⟩
  | .error .patternError =>
      ⟨[Step.note "Invalid regular expression!"], some 1⟩
  | .ok sel =>
      if sourceIsFile then
        ⟨sel.hosts.map Step.launch
            ++ [Step.reported (print_result (start_procs sel.hosts exitOf))], none⟩
      else
        ⟨[Step.note (">>> Source " ++ source ++ " does not exist")], some 1⟩

/-! ### Helper lemmas -/

theorem length_filter_split (l : List Proc) :
    (l.filter fun p => p.exitcode == 0).length
      + (l.filter fun p => p.exitcode != 0).length = l.length := by
  induction l with
  | nil => rfl
  | cons a t ih =>
      by_cases h : a.exitcode = 0
      · simp only [List.filter_cons, h]
        simp only [beq_self_eq_true, if_true, bne_self_eq_false, Bool.false_eq_true,
          if_false, List.length_cons]
        omega
      · simp only [List.filter_cons]
        rw [if_neg (by simpa using h), if_pos (by simpa using h)]
        simp only [List.length_cons]
        omega

theorem flatten_map_single {α β : Type} (f : α → β) (l : List α) :
    (l.map fun a => [f a]).flatten = l.map f := by
  induction l with
  | nil => rfl
  | cons a t ih => simp [ih]

theorem throttled_count (hosts : List String) : ∀ n : Nat,
    (((hosts.map fun h => [Event.launch h, Event.awaitResult h, Event.sleepPause]).flatten
        ++ [Event.drain]).take n).countP Event.isLaunch
      ≤ (((hosts.map fun h => [Event.launch h, Event.awaitResult h, Event.sleepPause]).flatten
          ++ [Event.drain]).take n).countP Event.isAwait + 1 := by
  induction hosts with
  | nil =>
      intro n
      cases n with
      | zero => simp
      | succ m => simp [Event.isLaunch, Event.isAwait]
  | cons h t ih =>
      intro n
      match n with
      | 0 => simp
      | 1 => simp [Event.isLaunch, Event.isAwait, List.countP_cons]
      | 2 => simp [Event.isLaunch, Event.isAwait, List.countP_cons]
      | (m + 3) =>
          have hm := ih m
          simp only [List.map_cons, List.flatten_cons, List.cons_append, List.nil_append,
            List.take_succ_cons, List.countP_cons, Event.isLaunch, Event.isAwait] at hm ⊢
          simp only [if_true, if_false, Bool.false_eq_true] at hm ⊢
          omega

/-! ### The claims -/

/-- Claim C1: for every worker whose remote operation completes and yields
at least one stderr line, the worker's exit code is 1 and its WorkerResult
is not a success, regardless of the remote command's own numeric exit
status (which the code never reads). -/
theorem nonempty_stderr_fails (host : String) (remoteStatus : Int)
    (out err : List String) (herr : err ≠ []) :
    runWorker host (SessionBehavior.complete remoteStatus out err)
      = Except.ok ⟨host, 1, false⟩ := by
  cases err with
  | nil => exact absurd rfl herr
  | cons e es => rfl

theorem nonempty_stderr_fails_witness :
    (["remote error"] : List String) ≠ []
    ∧ runWorker "h" (SessionBehavior.complete 0 [] ["remote error"])
        = Except.ok ⟨"h", 1, false⟩ :=
  ⟨by decide, nonempty_stderr_fails "h" 0 [] ["remote error"] (by decide)⟩

/-- Claim C2, evaluation at the failing input: a worker whose connect
raises an ssh-layer exception (for example a paramiko
`AuthenticationException`, whose object has no `message` attribute under
Python 3) emits no host-prefixed error line at all — the handler on
line 64 itself raises `AttributeError` before printing — and the `return`
in `finally` then yields the stale exit code 0, so the host is recorded as
a success, contradicting the claimed single error line and exit status
1. -/
theorem ssh_failure_swallowed :
    Executor.exec "web1" (SessionBehavior.failSSH [] [] false "Bad host key")
        = Except.ok ⟨0, []⟩
    ∧ runWorker "web1" (SessionBehavior.failSSH [] [] false "Bad host key")
        = Except.ok ⟨"web1", 0, true⟩ :=
  ⟨rfl, rfl⟩

/-- Claim C3: the report's success count plus the number of reported
failed hosts equals the number of hosts selected, every launched worker
contributing exactly one entry; every worker with a nonzero exit code —
including a negative one from early termination by cancellation — is
listed among the failures. -/
theorem report_partition (hosts : List String) (exitOf : String → Int) :
    (print_result (start_procs hosts exitOf)).numOk
        + (print_result (start_procs hosts exitOf)).failedHosts.length = hosts.length
    ∧ ∀ h ∈ hosts, exitOf h ≠ 0 →
        h ∈ (print_result (start_procs hosts exitOf)).failedHosts := by
  constructor
  · have hsplit := length_filter_split (start_procs hosts exitOf)
    have hlen : (start_procs hosts exitOf).length = hosts.length := List.length_map ..
    simp only [print_result, List.length_map, List.length_mergeSort]
    omega
  · intro h hmem hfail
    simp only [print_result, List.mem_map]
    refine ⟨⟨h, exitOf h⟩, ?_, rfl⟩
    rw [List.mem_mergeSort, List.mem_filter]
    refine ⟨List.mem_map.mpr ⟨h, hmem, rfl⟩, ?_⟩
    simpa using hfail

theorem report_partition_witness :
    (print_result (start_procs ["web2", "web1"]
          fun h => if h = "web1" then (0 : Int) else -15)).numOk
        + (print_result (start_procs ["web2", "web1"]
            fun h => if h = "web1" then (0 : Int) else -15)).failedHosts.length = 2
    ∧ "web2" ∈ (print_result (start_procs ["web2", "web1"]
        fun h => if h = "web1" then (0 : Int) else -15)).failedHosts :=
  ⟨(report_partition ["web2", "web1"] fun h => if h = "web1" then (0 : Int) else -15).1,
   (report_partition ["web2", "web1"] (fun h => if h = "web1" then (0 : Int) else -15)).2
     "web2" (by decide) (by decide)⟩

/-- Claim C4: with a positive interval the launch loop's trace is, per
host in order, a launch immediately followed by a join on that same worker
and the interval sleep; consequently, at every point of the trace at most
one worker has been launched whose result has not yet been awaited, so
worker i+1 never launches before worker i's result exists. -/
theorem throttled_trace (v : Rat) (hv : 0 < v) (hosts : List String) :
    start_procs_trace v hosts
        = (hosts.map fun h =>
            [Event.launch h, Event.awaitResult h, Event.sleepPause]).flatten
          ++ [Event.drain]
    ∧ ∀ n : Nat,
        ((start_procs_trace v hosts).take n).countP Event.isLaunch
          ≤ ((start_procs_trace v hosts).take n).countP Event.isAwait + 1 := by
  have hwb : workerBlock v
      = fun h => [Event.launch h, Event.awaitResult h, Event.sleepPause] := by
    funext h
    simp [workerBlock, hv]
  have heq : start_procs_trace v hosts
      = (hosts.map fun h =>
          [Event.launch h, Event.awaitResult h, Event.sleepPause]).flatten
        ++ [Event.drain] := by
    unfold start_procs_trace
    rw [hwb]
  refine ⟨heq, ?_⟩
  intro n
  rw [heq]
  exact throttled_count hosts n

theorem throttled_trace_witness :
    (0 : Rat) < 1
    ∧ start_procs_trace 1 ["a", "b"]
        = [Event.launch "a", Event.awaitResult "a", Event.sleepPause,
           Event.launch "b", Event.awaitResult "b", Event.sleepPause, Event.drain]
    ∧ ((start_procs_trace 1 ["a", "b"]).take 4).countP Event.isLaunch
        ≤ ((start_procs_trace 1 ["a", "b"]).take 4).countP Event.isAwait + 1 :=
  ⟨by decide, (throttled_trace 1 (by decide) ["a", "b"]).1,
   (throttled_trace 1 (by decide) ["a", "b"]).2 4⟩

/-- Claim C5: with interval 0 and a non-empty host list, the launch loop
performs no join and no sleep — the trace is exactly one launch per host,
in order, followed by entry into the drain loop — so every worker is
launched before any worker is required to have completed. -/
theorem concurrent_trace (hosts : List String) (_hne : hosts ≠ []) :
    start_procs_trace 0 hosts = hosts.map Event.launch ++ [Event.drain]
    ∧ (start_procs_trace 0 hosts).countP Event.isAwait = 0 := by
  have hwb0 : workerBlock 0 = fun h => [Event.launch h] := by
    funext h
    simp [workerBlock]
  have heq : start_procs_trace 0 hosts = hosts.map Event.launch ++ [Event.drain] := by
    unfold start_procs_trace
    rw [hwb0, flatten_map_single]
  refine ⟨heq, ?_⟩
  rw [heq]
  simp [List.countP_append, List.countP_map, Event.isAwait, Function.comp]

theorem concurrent_trace_witness :
    start_procs_trace 0 ["a", "b"] = [Event.launch "a", Event.launch "b", Event.drain]
    ∧ (start_procs_trace 0 ["a", "b"]).countP Event.isAwait = 0 :=
  ⟨(concurrent_trace ["a", "b"] (by decide)).1, (concurrent_trace ["a", "b"] (by decide)).2⟩

/-- Claim C6: host selection matches the pattern against each stored host
identifier anchored at the start only — a literal pattern selects exactly
the keys it is a prefix of, not only full-string matches — and on the
store web1, web2, db1 the pattern web selects exactly web1 and web2, with
the printed report sorted. -/
theorem host_selection_semantics :
    get_hosts (Except.ok ["web1", "web2", "db1"]) (some (lit "web".data))
        = Except.ok ⟨["web1", "web2"], ["web1", "web2"]⟩
    ∧ (∀ (p : List Char) (s : String), reMatch (lit p) s = true ↔ p <+: s.data)
    ∧ reMatch (lit "web".data) "web1" = true
    ∧ ("web1" : String) ≠ "web" :=
  ⟨rfl, reMatch_lit, by decide, by decide⟩

/-- Claim C7: the failed hosts in the report are sorted lexicographically
by host identifier whatever the input order of the process list, and they
are exactly the hosts of the processes that exited nonzero. -/
theorem print_result_failed_sorted (ps : List Proc) :
    List.Sorted (fun a b => strLe a b = true) (print_result ps).failedHosts
    ∧ ((print_result ps).failedHosts).Perm
        ((ps.filter fun p => p.exitcode != 0).map Proc.host) := by
  constructor
  · have hs : List.Pairwise (fun a b : Proc => strLe a.host b.host = true)
        ((ps.filter fun p => p.exitcode != 0).mergeSort fun a b => strLe a.host b.host) :=
      List.sorted_mergeSort
        (fun a b c h1 h2 => lexLe_trans a.host.data b.host.data c.host.data h1 h2)
        (fun a b => lexLe_total a.host.data b.host.data) _
    exact List.pairwise_map.mpr hs
  · exact List.Perm.map Proc.host (List.mergeSort_perm _ _)

/-- Claim C8: a store error, an invalid pattern, or a missing local copy
source aborts the copy invocation with exit status 1 and a user-facing
message, before any worker is launched. -/
theorem fatal_aborts_before_launch (source : String) (store : Except Unit (List String))
    (pat : Option Regex) (sourceIsFile : Bool) (exitOf : String → Int)
    (hfatal : store = Except.error () ∨ pat = none ∨ sourceIsFile = false) :
    (copyInvocation source store pat sourceIsFile exitOf).exitStatus = some 1
    ∧ (∀ h, Step.launch h ∉ (copyInvocation source store pat sourceIsFile exitOf).steps)
    ∧ ∃ m, Step.note m ∈ (copyInvocation source store pat sourceIsFile exitOf).steps := by
  rcases hfatal with h | h | h
  · subst h
    simp [copyInvocation, get_hosts]
  · subst h
    cases store with
    | error u => simp [copyInvocation, get_hosts]
    | ok keys => simp [copyInvocation, get_hosts]
  · subst h
    cases store with
    | error u => simp [copyInvocation, get_hosts]
    | ok keys =>
        cases pat with
        | none => simp [copyInvocation, get_hosts]
        | some r => simp [copyInvocation, get_hosts]

theorem fatal_aborts_before_launch_witness :
    (copyInvocation "f.txt" (Except.ok ["web1"]) (some (lit "web".data)) false
        fun _ => 0).exitStatus = some 1
    ∧ (∀ h, Step.launch h ∉ (copyInvocation "f.txt" (Except.ok ["web1"])
        (some (lit "web".data)) false fun _ => 0).steps)
    ∧ ∃ m, Step.note m ∈ (copyInvocation "f.txt" (Except.ok ["web1"])
        (some (lit "web".data)) false fun _ => 0).steps :=
  fatal_aborts_before_launch "f.txt" (Except.ok ["web1"]) (some (lit "web".data)) false
    (fun _ => 0) (Or.inr (Or.inr rfl))

/-- Claim C9: `_exec` returns an integer on every path and never
propagates an exception — the `return` in the `finally` block suppresses
any in-flight exception, including the `AttributeError` raised inside the
ssh-exception handler itself — and the exit code is then whatever the
local variable held at that moment, which is 0 when the handler crashed
before setting it, so such a host is recorded as a success. -/
theorem worker_always_returns :
    (∀ (host : String) (b : SessionBehavior), ∃ st, Executor.exec host b = Except.ok st)
    ∧ Executor.exec "h" (SessionBehavior.failSSH [] [] false "Authentication failed.")
        = Except.ok ⟨0, []⟩
    ∧ runWorker "h" (SessionBehavior.failSSH [] [] false "Authentication failed.")
        = Except.ok ⟨"h", 0, true⟩ := by
  refine ⟨?_, rfl, rfl⟩
  intro host b
  cases b with
  | complete s out err => exact ⟨_, rfl⟩
  | ioFail out err msg => exact ⟨_, rfl⟩
  | failSSH out err hm msg =>
      cases hm
      · exact ⟨_, rfl⟩
      · exact ⟨_, rfl⟩

/-- Claim C10: when no stored key matches, host selection returns an empty
list rather than failing, the launch loop launches no worker and proceeds
straight to the drain loop, and the report states 0 successful invocations
and 0 failures. -/
theorem empty_selection_report (keys : List String) (rex : Regex) (interval : Rat)
    (exitOf : String → Int) (hnone : ∀ k ∈ keys, reMatch rex k = false) :
    get_hosts (Except.ok keys) (some rex) = Except.ok ⟨[], []⟩
    ∧ start_procs_trace interval [] = [Event.drain]
    ∧ print_result (start_procs [] exitOf) = ⟨0, []⟩ := by
  refine ⟨?_, ?_, rfl⟩
  · have hfil : (keys.filter fun k => reMatch rex k) = [] :=
      List.filter_eq_nil_iff.mpr (fun a ha => by simp [hnone a ha])
    simp [get_hosts, hfil, List.mergeSort_nil]
  · simp [start_procs_trace]

theorem empty_selection_report_witness :
    get_hosts (Except.ok ["db1"]) (some (lit "web".data)) = Except.ok ⟨[], []⟩
    ∧ start_procs_trace 0 [] = [Event.drain]
    ∧ print_result (start_procs [] fun _ => 0) = ⟨0, []⟩ :=
  empty_selection_report ["db1"] (lit "web".data) 0 (fun _ => 0) (by decide)

end Pypsh
